import Mathlib

/-!
Verification of the cooldown tracking and view-reconciliation engine of
the gl_discord_bot repository, as a shallow embedding of src/bot/views.py
(class WarView).  Timestamps are modelled as whole seconds (Int); the
source uses timezone-aware datetimes and float second differences, and
every property below is about whole-second instants.

Mapping to the source:
  * Tracked           - one element of self.members (info = main_sb) or
                        self.colonies (info = (starbase, x, y)); the field
                        tid is the member name resp. the colony ident, and
                        last is the last_attack timestamp or absent.
  * NotifKey          - the notification key strings built by the f-strings
                        "member:{name}" and "colony:{ident}" in
                        start_countdown.  The two constructors model the two
                        distinct text forms faithfully: the forms carry
                        their id verbatim and differ in their fixed head, so
                        the string map is injective and constructor equality
                        coincides with string equality.
  * pruneLedger       - the cleanup of self.respawn_notifications at the top
                        of each countdown tick (entries at least 3600 s old
                        are dropped).
  * check_respawns    - the two "Check for respawns and DB cleanup" loops of
                        start_countdown (views.py lines 549-567), one
                        instantiation per target collection.
  * countdown_tick    - one iteration of the while loop of start_countdown,
                        restricted to the respawn bookkeeping: prune the
                        ledger, then walk members, then colonies.  The
                        button-label refresh block only ever turns the
                        updated flag on, so the updated flag computed here
                        is a sound witness that a re-render is triggered.
                        The vestigial self.notified_respawns bookkeeping is
                        omitted: that container starts empty and nothing in
                        the loop ever adds to it, so it stays empty and has
                        no effect on any behavior.
  * run_countdown     - a sequence of such ticks at given instants.
-/

/-- Notification key, modelling the strings built by the f-strings
"member:{name}" (for main-mode members) and "colony:{ident}" (for
colonies) in start_countdown. -/
inductive NotifKey where
  | member (name : String)
  | colony (ident : String)
deriving DecidableEq, Repr

/-- A tracked target: one cache entry of self.members (info = main_sb)
or self.colonies (info = (starbase, x, y)); tid is the member name resp.
the colony ident, last the cached last_attack timestamp (absent = not
on cooldown). -/
structure Tracked (α : Type) where
  tid : String
  last : Option Int
  info : α
deriving DecidableEq, Repr

/-- One externally visible respawn notification (a channel.send call in
start_countdown), tagged with the key it was emitted for, the cached
last_attack value that caused it (the expiry instant is lastAt plus the
cooldown in seconds), and the tick instant it was sent at. -/
structure Notif where
  key : NotifKey
  lastAt : Int
  sentAt : Int
deriving DecidableEq, Repr

/-- The dedup ledger self.respawn_notifications: key to insertion time. -/
abbrev Ledger := List (NotifKey × Int)

/-- Membership test for a key, modelling the Python test
  notify_key not in self.respawn_notifications  (negated). -/
def ledgerHas (lg : Ledger) (k : NotifKey) : Bool :=
  lg.any (fun e => e.1 = k)

/-- The notification cleanup at the top of each tick (views.py lines
469-475): drop every entry whose timestamp is at least 3600 seconds old. -/
def pruneLedger (now : Int) (lg : Ledger) : Ledger :=
  lg.filter (fun e => now - e.2 < 3600)

/-- Result of one pass of the respawn-check loop over one target
collection. -/
structure PassResult (α : Type) where
  entries : List (Tracked α)
  ledger : Ledger
  notifs : List Notif
  dels : List String
  updated : Bool
deriving DecidableEq, Repr

/-- The respawn-check loop of start_countdown (views.py lines 549-567):
for every entry whose record is present and at least cd hours old, send
a notification unless its key is already in the ledger (inserting the
key when sending, and scheduling the id for the store DELETE), and in
all expired cases clear the cached timestamp and raise the updated flag.
The same loop runs once with mk = NotifKey.member over self.members and
once with mk = NotifKey.colony over self.colonies. -/
def check_respawns (cd now : Int) (mk : String → NotifKey) :
    List (Tracked α) → Ledger → PassResult α
  | [], lg => ⟨[], lg, [], [], false⟩
  | e :: rest, lg =>
    match e.last with
    | some l =>
      if now - l ≥ cd * 3600 then
        if ledgerHas lg (mk e.tid) then
          let r := check_respawns cd now mk rest lg
          ⟨{ e with last := none } :: r.entries, r.ledger, r.notifs, r.dels, true⟩
        else
          let r := check_respawns cd now mk rest ((mk e.tid, now) :: lg)
          ⟨{ e with last := none } :: r.entries, r.ledger,
            ⟨mk e.tid, l, now⟩ :: r.notifs, e.tid :: r.dels, true⟩
      else
        let r := check_respawns cd now mk rest lg
        ⟨e :: r.entries, r.ledger, r.notifs, r.dels, r.updated⟩
    | none =>
      let r := check_respawns cd now mk rest lg
      ⟨e :: r.entries, r.ledger, r.notifs, r.dels, r.updated⟩

/-- Whether a cached record counts as expired on a tick at instant now,
modelling  member["last"] and (now - member["last"]).total_seconds()
>= self.cd * 3600. -/
def isExpired (cd now : Int) (last : Option Int) : Bool :=
  match last with
  | some l => decide (now - l ≥ cd * 3600)
  | none => false

/-- The per-session reconciler state carried across ticks: the two target
caches and the dedup ledger. -/
structure TickState where
  members : List (Tracked Int)
  colonies : List (Tracked (Int × Int × Int))
  ledger : Ledger
deriving DecidableEq, Repr

/-- Externally visible outcome of one tick: new state, notifications sent
in order, ids scheduled for the store DELETE, and whether a re-render is
triggered. -/
structure TickResult where
  state : TickState
  notifs : List Notif
  deleteSet : List String
  updated : Bool
deriving DecidableEq, Repr

/-- One iteration of the start_countdown while loop, restricted to the
respawn bookkeeping: prune the ledger, then run the respawn check over
members and then over colonies, threading the ledger.  The source
collects the ids to delete in one Python set shared by both loops; the
list deleteSet has the same membership. -/
def countdown_tick (cd now : Int) (s : TickState) : TickResult :=
  let lg0 := pruneLedger now s.ledger
  let rm := check_respawns cd now NotifKey.member s.members lg0
  let rc := check_respawns cd now NotifKey.colony s.colonies rm.ledger
  ⟨⟨rm.entries, rc.entries, rc.ledger⟩, rm.notifs ++ rc.notifs,
    rm.dels ++ rc.dels, rm.updated || rc.updated⟩

/-- A sequence of reconciler ticks at the given instants, collecting all
notifications in emission order. -/
def run_countdown (cd : Int) : TickState → List Int → TickState × List Notif
  | s, [] => (s, [])
  | s, t :: ts =>
    let r := countdown_tick cd t s
    let rest := run_countdown cd r.state ts
    (rest.1, r.notifs ++ rest.2)

/-- The store effect of the batch DELETE
  DELETE FROM war_attacks WHERE guild_id=$1 AND member=ANY($2)
on the war_attacks rows of one guild, modelled as an association list
target id to last_attack. -/
def applyDeletes (store : List (String × Int)) (names : List String) :
    List (String × Int) :=
  store.filter (fun p => decide (p.1 ∉ names))

/-!
Rendering (WarView.rebuild_view, views.py lines 143-337).  The grid is a
fixed 4 x 2 page (members_per_column = 4, columns = 2, page size 8); the
cache is first swept for expired records, the page index is clamped, the
row-0 pagination controls are built, and then for every grid cell taken
in row-major iteration order the cache entry at index
  current_page * page_size + (column * members_per_column + row)
is rendered as a (disabled) name button plus an attack button.  Only the
attack button carries claim-relevant state, so cells here carry the
entry and its attack button.
-/

/-- Discord button styles used by rebuild_view. -/
inductive BtnStyle where
  | primary
  | secondary
  | danger
deriving DecidableEq, Repr

/-- The claim-relevant fields of an attack button as rebuild_view sets
them: label text, style, disabled flag and the optional expiry attribute
(set only when the remaining time is positive). -/
structure AttackBtn where
  label : String
  style : BtnStyle
  disabled : Bool
  expiry : Option Int
deriving DecidableEq, Repr

/-- The remaining cooldown, max(0, self.cd * 3600 - elapsed) with
elapsed = (now - entry["last"]).total_seconds()  (views.py line 291). -/
def remainingOf (cd last now : Int) : Int :=
  max 0 (cd * 3600 - (now - last))

/-- The cooldown label of rebuild_view (views.py lines 293-299):
  if remaining >= 3600:
      hr = remaining // 3600; mn = (remaining % 3600) // 60
      label = f"{self.cd}hr" if mn == 0 else f"{hr}hr {mn}min"
  else:
      label = f"{ceil(remaining / 60)}min"
On the nonnegative whole-second values this is applied to, Python floor
division and ceiling agree with Int division and (r + 59) / 60. -/
def cooldownLabel (cd rem : Int) : String :=
  if rem ≥ 3600 then
    let hr := rem / 3600
    let mn := (rem % 3600) / 60
    if mn = 0 then toString cd ++ "hr" else
      toString hr ++ "hr " ++ toString mn ++ "min"
  else
    toString ((rem + 59) / 60) ++ "min"

/-- The attack button rebuild_view builds for a cache entry (views.py
lines 284-328): with a present record the label shows the remaining
cooldown, the style is danger, the button stays clickable, and the
expiry attribute last + cd hours is attached only while remaining > 0;
with an absent record the label is "Attacked", primary, clickable. -/
def make_attack_button (cd : Int) (last : Option Int) (now : Int) : AttackBtn :=
  match last with
  | some l =>
    let rem := remainingOf cd l now
    { label := cooldownLabel cd rem
      style := BtnStyle.danger
      disabled := false
      expiry := if rem > 0 then some (l + cd * 3600) else none }
  | none =>
    { label := "Attacked", style := BtnStyle.primary
      disabled := false, expiry := none }

/-- The expired-record sweep at the top of rebuild_view (views.py lines
163-171): every cache entry whose record is at least cd hours old is
cleared in place. -/
def clear_expired_cache (cd now : Int) (cache : List (Tracked α)) :
    List (Tracked α) :=
  cache.map (fun e => if isExpired cd now e.last then { e with last := none } else e)

/-- The page count, total_pages = math.ceil(len(cache) / page_size) if
cache else 1
(views.py line 177), with page_size = 8. -/
def totalPages (n : Nat) : Nat :=
  if n = 0 then 1 else (n + 7) / 8

/-- The page clamp of rebuild_view (views.py lines 178-181). -/
def clampPage (p : Int) (n : Nat) : Nat :=
  if p < 0 then 0
  else if p ≥ (totalPages n : Int) then totalPages n - 1
  else p.toNat

/-- One candidate grid cell: for row r and column c of page p the cache
index is p * 8 + (c * 4 + r); the cell is skipped when that index is
outside the cache (the continue at views.py line 260). -/
def cellOf (p n r c : Nat) : Option (Nat × Nat × Nat) :=
  let idx := p * 8 + (c * 4 + r)
  if idx < n then some (r, c, idx) else none

/-- One grid row: the inner  for c in range(columns)  loop with
columns = 2, appending the cell for c = 0 and then for c = 1 when
present. -/
def gridRow (p n r : Nat) : List (Nat × Nat × Nat) :=
  (cellOf p n r 0).toList ++ (cellOf p n r 1).toList

/-- The populated grid cells of page p over a cache of n entries, in the
iteration order of the  for r in range(members_per_column)  loop of
rebuild_view (views.py lines 256-261): each element is
(row, column, cache index). -/
def gridCells (p n : Nat) : List (Nat × Nat × Nat) :=
  gridRow p n 0 ++ gridRow p n 1 ++ gridRow p n 2 ++ gridRow p n 3

/-- The cache indices shown on page p. -/
def pageIndices (p n : Nat) : List Nat :=
  (gridCells p n).map (fun x => x.2.2)

/-- The row-0 pagination controls of rebuild_view. -/
inductive Control where
  | prev
  | tracker
  | next
  | refresh
  | modeSwitch
deriving DecidableEq, Repr

/-- The row-0 control buttons rebuild_view adds (views.py lines 184-253):
Previous only when current_page > 0, the page tracker always, Next only
when current_page < total_pages - 1, then Refresh and the mode-switch
button always. -/
def controlsFor (p total : Nat) : List Control :=
  (if 0 < p then [Control.prev] else []) ++ [Control.tracker] ++
    (if p < total - 1 then [Control.next] else []) ++
    [Control.refresh, Control.modeSwitch]

/-- A rendered page: the row-0 controls plus, per populated cell,
(row, column, cache entry, attack button). -/
structure RenderedPage (α : Type) where
  controls : List Control
  cells : List (Nat × Nat × Tracked α × AttackBtn)
deriving DecidableEq, Repr

/-- rebuild_view as a pure function of the current cache (self.members or
self.colonies depending on mode), the requested page and the instant:
sweep expired records, clamp the page, emit the controls and the
populated grid cells. -/
def rebuild_view (cd now : Int) (cache : List (Tracked α)) (page : Int) :
    RenderedPage α :=
  let cache := clear_expired_cache cd now cache
  let n := cache.length
  let p := clampPage page n
  { controls := controlsFor p (totalPages n)
    cells := (gridCells p n).filterMap (fun rc =>
      (cache.get? rc.2.2).map (fun e =>
        (rc.1, rc.2.1, e, make_attack_button cd e.last now))) }

/-- Modelled from the words of claim C3 and spec section 4.3, for
comparison with cooldownLabel: if remaining is at least one hour the
label is "{H}h" when the leftover minutes are zero and "{H}h {M}min"
otherwise, H being the whole hours of the remaining time itself; below
one hour it is "{M}min" with M rounded up. -/
def claimLabel (rem : Int) : String :=
  if rem ≥ 3600 then
    let hr := rem / 3600
    let mn := (rem % 3600) / 60
    if mn = 0 then toString hr ++ "h" else
      toString hr ++ "h " ++ toString mn ++ "min"
  else
    toString ((rem + 59) / 60) ++ "min"

/-!
Click handling (WarView.create_callback and create_colony_callback,
views.py lines 340-442).  Both walk their cache for the first entry with
the clicked id and toggle it: a present record is cleared and deleted
from the store, an absent record is set to now and upserted.  No check
of the elapsed time is made.
-/

/-- The store mutation a click issues. -/
inductive StoreOp where
  | del (tid : String)
  | upsert (tid : String) (t : Int)
  | noop
deriving DecidableEq, Repr

/-- The body of the closure returned by create_callback resp.
create_colony_callback: find the first cache entry with the clicked id;
if its record is present clear it and DELETE the store row, otherwise
set it to now and upsert the store row (the SQL uses NOW(), modelled as
the same instant). -/
def callback_click (now : Int) (tid : String) :
    List (Tracked α) → List (Tracked α) × StoreOp
  | [] => ([], StoreOp.noop)
  | e :: rest =>
    if e.tid = tid then
      match e.last with
      | some _ => ({ e with last := none } :: rest, StoreOp.del tid)
      | none => ({ e with last := some now } :: rest, StoreOp.upsert tid now)
    else
      let r := callback_click now tid rest
      (e :: r.1, r.2)

/-- Effect of a store mutation on the war_attacks rows of one guild
(association list target id to last_attack): DELETE removes the rows of
the id, the INSERT .. ON CONFLICT DO UPDATE replaces them with one row. -/
def applyStoreOp (store : List (String × Int)) : StoreOp → List (String × Int)
  | StoreOp.del tid => store.filter (fun p => decide (p.1 ≠ tid))
  | StoreOp.upsert tid t => (tid, t) :: store.filter (fun p => decide (p.1 ≠ tid))
  | StoreOp.noop => store

/-!
Loop control (start_countdown, views.py lines 444-654).

Decisive source fact: views.py line 5 imports only ButtonStyle and ui
from the discord package, so the module never binds the name discord.
Every clause  except discord.NotFound: / except discord.Forbidden:
(views.py lines 616, 619, 633) therefore raises NameError the moment an
exception reaches it, and in Python an exception raised while a clause
of a try statement is evaluated abandons the handler search of that
whole try statement — the remaining clauses (in particular the
except Exception at line 636) are not consulted — and propagates as if
the try body itself had raised.  The only reachable handler around the
view-update block is the outer  except Exception  at line 639.

Per tick the loop can therefore hit:
  * refreshFail - refresh_references returned False (views.py lines
    477-484): self.error_count (never reset anywhere) is incremented
    and the loop returns once it reaches 3;
  * noUpdate - the updated flag is false, the update block is skipped;
  * editOk - the own message was fetched and edited (error_count = 0 at
    line 615) and the sibling walk finished without an exception;
  * editError - fetching or editing the own message raised (whatever the
    reason, a deleted message or lost permission included: the handlers
    at lines 616-621 NameError); the outer handler at line 639 counts
    one generic error (return at 5) and the sibling walk is skipped;
  * siblingError - the own edit succeeded (error_count reset to 0), then
    some sibling raised; the clause at line 633 NameErrors past the
    handler at 636, so line 639 counts one generic error: error_count
    becomes 0 + 1 and the loop never returns from this path alone;
  * tickError - an exception elsewhere in the tick, caught at line 648
    and only printed.
There is no immediate-stop path: the returns at lines 617 and 620 are
dead code.
-/

/-- Abstracted outcome of one tick for the loop-control logic. -/
inductive TickOutcome where
  | refreshFail
  | noUpdate
  | editOk
  | editError
  | siblingError
  | tickError
deriving DecidableEq, Repr

/-- Loop-control state: selfErr is self.error_count (incremented on
reference-refresh failures, never reset), localErr the local error_count
of start_countdown (reset on a successful edit of the own message),
stopped whether the while loop has returned. -/
structure LoopCtl where
  selfErr : Nat
  localErr : Nat
  stopped : Bool
deriving DecidableEq, Repr

/-- Counters at loop entry: both zero (views.py lines 46 and 463). -/
def initCtl : LoopCtl := ⟨0, 0, false⟩

/-- The loop-control effect of one tick outcome (views.py lines 477-484
for refreshFail, 607-646 for the update block, 648-652 for tickError).
For siblingError the reset at line 615 has already run when line 639
increments, hence localErr = 0 + 1. -/
def loop_step (st : LoopCtl) (o : TickOutcome) : LoopCtl :=
  if st.stopped then st else
  match o with
  | TickOutcome.refreshFail =>
    { st with selfErr := st.selfErr + 1, stopped := decide (st.selfErr + 1 ≥ 3) }
  | TickOutcome.noUpdate => st
  | TickOutcome.editOk => { st with localErr := 0 }
  | TickOutcome.editError =>
    { st with localErr := st.localErr + 1, stopped := decide (st.localErr + 1 ≥ 5) }
  | TickOutcome.siblingError =>
    { st with localErr := 0 + 1, stopped := decide (0 + 1 ≥ 5) }
  | TickOutcome.tickError => st

/-- The loop-control state after a sequence of tick outcomes. -/
def run_loop (st : LoopCtl) : List TickOutcome → LoopCtl
  | [] => st
  | o :: os => run_loop (loop_step st o) os

/-!
The view-update block of one tick (views.py lines 607-637), under the
unbound-discord fact above: the own message is fetched and edited; if
that raises, the block aborts (editError) and no sibling is touched.
Otherwise every other registered view of parent_cog.active_views with a
message is fetched, rebuilt and edited in walk order; the first sibling
whose processing raises aborts the whole walk via NameError at line 633
(siblingError) — the pop at line 635 and the print-and-continue at line
637 are unreachable, so no view is ever pruned from active_views and
the siblings after the failing one are not edited that tick.
-/

/-- Reachability of the surface behind the message of one view: the
fetch, rebuild and edit succeed (ok), the message is gone or access was
revoked so the fetch raises NotFound or Forbidden (gone), some other
exception is raised (err), or the view has no message and is skipped by
the guard at line 626 (noMsg).  For the own message, gone, err and noMsg
all mean the fetch or edit raised. -/
inductive Surface where
  | ok
  | gone
  | err
  | noMsg
deriving DecidableEq, Repr

/-- Outcome of one view-update pass: the sibling views actually edited
(in walk order), the views removed from active_views, and the outcome
the loop control sees. -/
structure UpdateResult where
  edited : List String
  pruned : List String
  outcome : TickOutcome
deriving DecidableEq, Repr

/-- The sibling-view walk (views.py lines 624-637): views without a
message are skipped; a reachable view is edited and the walk continues;
the first view whose processing raises — NotFound, Forbidden or any
other exception alike — makes the clause at line 633 raise NameError
(discord is unbound), which skips the handler at line 636 and aborts
the walk: later views are not visited and nothing is pruned.  Returns
the edited ids and whether the walk aborted. -/
def update_other_views : List (String × Surface) → List String × Bool
  | [] => ([], false)
  | (gid, s) :: rest =>
    match s with
    | Surface.ok =>
      let r := update_other_views rest
      (gid :: r.1, r.2)
    | Surface.gone => ([], true)
    | Surface.err => ([], true)
    | Surface.noMsg => update_other_views rest

/-- The whole update block: the own message first — any failure there
(a deleted message or lost permission included) becomes a NameError at
lines 616-621, is counted at line 639 as one generic error and skips
the sibling walk — then the sibling walk, whose abort is likewise one
generic error after the counter reset.  The pruned list is part of the
result to record that active_views is never shrunk here. -/
def update_views (own : Surface) (others : List (String × Surface)) :
    UpdateResult :=
  match own with
  | Surface.ok =>
    let r := update_other_views others
    ⟨r.1, [], if r.2 then TickOutcome.siblingError else TickOutcome.editOk⟩
  | Surface.gone => ⟨[], [], TickOutcome.editError⟩
  | Surface.err => ⟨[], [], TickOutcome.editError⟩
  | Surface.noMsg => ⟨[], [], TickOutcome.editError⟩

/-- No cache entry of the session state carries the record value l. -/
def absentLast (s : TickState) (l : Int) : Prop :=
  (∀ e ∈ s.members, e.last ≠ some l) ∧ (∀ e ∈ s.colonies, e.last ≠ some l)

/-- The number of notifications of a list for one
(target key, cached record value) pair, determining one
(target id, expiry instant) pair: the expiry instant is the record value
plus the cooldown in seconds. -/
def notifCount (ns : List Notif) (k : NotifKey) (l : Int) : Nat :=
  ns.countP (fun n => decide (n.key = k ∧ n.lastAt = l))

/-- The number of notifications of a list for one target key. -/
def keyCount (ns : List Notif) (k : NotifKey) : Nat :=
  ns.countP (fun n => decide (n.key = k))

/-!
Lemmas about the respawn-check pass and the tick.
-/

/-- The entries a pass returns are the input entries with every expired
record cleared, independently of the ledger. -/
theorem check_respawns_entries (cd now : Int) (mk : String → NotifKey)
    (es : List (Tracked α)) : ∀ lg : Ledger,
    (check_respawns cd now mk es lg).entries =
      es.map (fun e => if isExpired cd now e.last then { e with last := none } else e) := by
  induction es with
  | nil => intro lg; rfl
  | cons e rest ih =>
    intro lg
    cases hl : e.last with
    | some l =>
      by_cases hexp : now - l ≥ cd * 3600
      · by_cases hled : ledgerHas lg (mk e.tid)
        · simp [check_respawns, hl, hexp, hled, isExpired, ih]
        · simp [check_respawns, hl, hexp, hled, isExpired, ih]
      · simp [check_respawns, hl, hexp, isExpired, ih]
    | none => simp [check_respawns, hl, isExpired, ih]

/-- The pass only ever adds entries to the ledger. -/
theorem check_respawns_ledger_grows (cd now : Int) (mk : String → NotifKey)
    (es : List (Tracked α)) (x : NotifKey × Int) : ∀ lg : Ledger, x ∈ lg →
    x ∈ (check_respawns cd now mk es lg).ledger := by
  induction es with
  | nil => intro lg hx; exact hx
  | cons e rest ih =>
    intro lg hx
    cases hl : e.last with
    | some l =>
      by_cases hexp : now - l ≥ cd * 3600
      · by_cases hled : ledgerHas lg (mk e.tid)
        · simpa [check_respawns, hl, hexp, hled] using ih lg hx
        · simpa [check_respawns, hl, hexp, hled] using
            ih ((mk e.tid, now) :: lg) (List.mem_cons_of_mem _ hx)
      · simpa [check_respawns, hl, hexp] using ih lg hx
    | none => simpa [check_respawns, hl] using ih lg hx

/-- A key known to the ledger is still known after the pass. -/
theorem check_respawns_ledgerHas_grows (cd now : Int) (mk : String → NotifKey)
    (es : List (Tracked α)) (lg : Ledger) (k : NotifKey)
    (h : ledgerHas lg k = true) :
    ledgerHas (check_respawns cd now mk es lg).ledger k = true := by
  unfold ledgerHas at h ⊢
  rw [List.any_eq_true] at h ⊢
  obtain ⟨x, hx, hk⟩ := h
  exact ⟨x, check_respawns_ledger_grows cd now mk es x lg hx, hk⟩

/-- A pair in the ledger makes ledgerHas true for its key. -/
theorem ledgerHas_of_mem (lg : Ledger) (k : NotifKey) (t : Int)
    (h : (k, t) ∈ lg) : ledgerHas lg k = true := by
  unfold ledgerHas
  rw [List.any_eq_true]
  exact ⟨(k, t), h, by simp⟩

/-- The idempotency guard: no notification is emitted for a key the
ledger already has at the start of the pass. -/
theorem check_respawns_suppressed (cd now : Int) (mk : String → NotifKey)
    (es : List (Tracked α)) (k : NotifKey) : ∀ lg : Ledger,
    ledgerHas lg k = true →
    ∀ n ∈ (check_respawns cd now mk es lg).notifs, n.key ≠ k := by
  induction es with
  | nil => intro lg _ n hn; simp [check_respawns] at hn
  | cons e rest ih =>
    intro lg hlg n hn
    cases hl : e.last with
    | some l =>
      by_cases hexp : now - l ≥ cd * 3600
      · by_cases hled : ledgerHas lg (mk e.tid)
        · simp only [check_respawns, hl, if_pos hexp, if_pos hled] at hn
          exact ih lg hlg n hn
        · simp only [check_respawns, hl, if_pos hexp, if_neg hled] at hn
          rcases List.mem_cons.mp hn with heq | htail
          · subst heq
            intro hcontra
            rw [← hcontra] at hlg
            exact hled hlg
          · exact ih ((mk e.tid, now) :: lg) (by
              unfold ledgerHas at hlg ⊢
              rw [List.any_eq_true] at hlg ⊢
              obtain ⟨x, hx, hk⟩ := hlg
              exact ⟨x, List.mem_cons_of_mem _ hx, hk⟩) n htail
      · simp only [check_respawns, hl, if_neg hexp] at hn
        exact ih lg hlg n hn
    | none =>
      simp only [check_respawns, hl] at hn
      exact ih lg hlg n hn
/-- Every notification a pass emits comes from an input entry whose
record was present and expired, and is stamped with the tick instant. -/
theorem check_respawns_notif_src (cd now : Int) (mk : String → NotifKey)
    (es : List (Tracked α)) : ∀ lg : Ledger,
    ∀ n ∈ (check_respawns cd now mk es lg).notifs,
    ∃ e ∈ es, mk e.tid = n.key ∧ e.last = some n.lastAt ∧
      now - n.lastAt ≥ cd * 3600 ∧ n.sentAt = now := by
  induction es with
  | nil => intro lg n hn; simp [check_respawns] at hn
  | cons e rest ih =>
    intro lg n hn
    cases hl : e.last with
    | some l =>
      by_cases hexp : now - l ≥ cd * 3600
      · by_cases hled : ledgerHas lg (mk e.tid)
        · simp only [check_respawns, hl, if_pos hexp, if_pos hled] at hn
          obtain ⟨e1, he1, hrest⟩ := ih lg n hn
          exact ⟨e1, List.mem_cons_of_mem _ he1, hrest⟩
        · simp only [check_respawns, hl, if_pos hexp, if_neg hled] at hn
          rcases List.mem_cons.mp hn with heq | htail
          · subst heq
            exact ⟨e, List.mem_cons_self _ _, rfl, hl, hexp, rfl⟩
          · obtain ⟨e1, he1, hrest⟩ := ih ((mk e.tid, now) :: lg) n htail
            exact ⟨e1, List.mem_cons_of_mem _ he1, hrest⟩
      · simp only [check_respawns, hl, if_neg hexp] at hn
        obtain ⟨e1, he1, hrest⟩ := ih lg n hn
        exact ⟨e1, List.mem_cons_of_mem _ he1, hrest⟩
    | none =>
      simp only [check_respawns, hl] at hn
      obtain ⟨e1, he1, hrest⟩ := ih lg n hn
      exact ⟨e1, List.mem_cons_of_mem _ he1, hrest⟩

/-- Emitting a notification inserts its key into the ledger: the pair
(key, tick instant) is in the ledger the pass returns. -/
theorem check_respawns_notif_inserted (cd now : Int) (mk : String → NotifKey)
    (es : List (Tracked α)) : ∀ lg : Ledger,
    ∀ n ∈ (check_respawns cd now mk es lg).notifs,
    (n.key, now) ∈ (check_respawns cd now mk es lg).ledger := by
  induction es with
  | nil => intro lg n hn; simp [check_respawns] at hn
  | cons e rest ih =>
    intro lg n hn
    cases hl : e.last with
    | some l =>
      by_cases hexp : now - l ≥ cd * 3600
      · by_cases hled : ledgerHas lg (mk e.tid)
        · simp only [check_respawns, hl, if_pos hexp, if_pos hled] at hn ⊢
          exact ih lg n hn
        · simp only [check_respawns, hl, if_pos hexp, if_neg hled] at hn ⊢
          rcases List.mem_cons.mp hn with heq | htail
          · subst heq
            exact check_respawns_ledger_grows cd now mk rest _
              ((mk e.tid, now) :: lg) (List.mem_cons_self _ _)
          · exact ih ((mk e.tid, now) :: lg) n htail
      · simp only [check_respawns, hl, if_neg hexp] at hn ⊢
        exact ih lg n hn
    | none =>
      simp only [check_respawns, hl] at hn ⊢
      exact ih lg n hn

/-- The keys of the notifications of one pass are pairwise distinct. -/
theorem check_respawns_keys_nodup (cd now : Int) (mk : String → NotifKey)
    (es : List (Tracked α)) : ∀ lg : Ledger,
    ((check_respawns cd now mk es lg).notifs.map Notif.key).Nodup := by
  induction es with
  | nil => intro lg; simp [check_respawns]
  | cons e rest ih =>
    intro lg
    cases hl : e.last with
    | some l =>
      by_cases hexp : now - l ≥ cd * 3600
      · by_cases hled : ledgerHas lg (mk e.tid)
        · simp only [check_respawns, hl, if_pos hexp, if_pos hled]
          exact ih lg
        · simp only [check_respawns, hl, if_pos hexp, if_neg hled, List.map_cons]
          refine List.nodup_cons.mpr ⟨?_, ih _⟩
          intro hmem
          obtain ⟨n, hn, hk⟩ := List.mem_map.mp hmem
          exact check_respawns_suppressed cd now mk rest (mk e.tid)
            ((mk e.tid, now) :: lg)
            (ledgerHas_of_mem _ _ now (List.mem_cons_self _ _)) n hn hk
      · simp only [check_respawns, hl, if_neg hexp]
        exact ih lg
    | none =>
      simp only [check_respawns, hl]
      exact ih lg

/-- If some input entry is expired and its key is not yet in the ledger,
the pass emits a notification with that key and schedules the entry id
for the store DELETE.  The key map must be injective; both f-string
forms are. -/
theorem check_respawns_emits (cd now : Int) (mk : String → NotifKey)
    (hmk : ∀ a b, mk a = mk b → a = b) (es : List (Tracked α))
    (e : Tracked α) : ∀ lg : Ledger, e ∈ es →
    isExpired cd now e.last = true → ledgerHas lg (mk e.tid) = false →
    (∃ n ∈ (check_respawns cd now mk es lg).notifs, n.key = mk e.tid) ∧
      e.tid ∈ (check_respawns cd now mk es lg).dels := by
  induction es with
  | nil => intro lg he; simp at he
  | cons e0 rest ih =>
    intro lg he hexp0 hled0
    rcases List.mem_cons.mp he with heq | htail
    · subst heq
      obtain ⟨l, hl, hlexp⟩ : ∃ l, e.last = some l ∧ now - l ≥ cd * 3600 := by
        cases hl : e.last with
        | some l =>
          rw [hl] at hexp0
          exact ⟨l, rfl, of_decide_eq_true (by simpa [isExpired] using hexp0)⟩
        | none => rw [hl] at hexp0; simp [isExpired] at hexp0
      have hneg : ¬ ledgerHas lg (mk e.tid) = true := by
        rw [hled0]
        exact Bool.false_ne_true
      simp only [check_respawns, hl, if_pos hlexp, if_neg hneg]
      constructor
      · exact ⟨⟨mk e.tid, l, now⟩, List.mem_cons_self _ _, rfl⟩
      · exact List.mem_cons_self _ _
    · cases hl : e0.last with
      | some l =>
        by_cases hexp : now - l ≥ cd * 3600
        · by_cases hled : ledgerHas lg (mk e0.tid)
          · simp only [check_respawns, hl, if_pos hexp, if_pos hled]
            exact ih lg htail hexp0 hled0
          · by_cases hsame : mk e0.tid = mk e.tid
            · simp only [check_respawns, hl, if_pos hexp, if_neg hled]
              constructor
              · exact ⟨⟨mk e0.tid, l, now⟩, List.mem_cons_self _ _, hsame⟩
              · have htid : e0.tid = e.tid := hmk _ _ hsame
                rw [← htid]
                exact List.mem_cons_self _ _
            · simp only [check_respawns, hl, if_pos hexp, if_neg hled]
              have hled2 : ledgerHas ((mk e0.tid, now) :: lg) (mk e.tid) = false := by
                unfold ledgerHas at hled0 ⊢
                simp only [List.any_cons, Bool.or_eq_false_iff]
                exact ⟨by simpa using hsame, hled0⟩
              obtain ⟨⟨n, hn, hk⟩, hd⟩ := ih ((mk e0.tid, now) :: lg) htail hexp0 hled2
              exact ⟨⟨n, List.mem_cons_of_mem _ hn, hk⟩, List.mem_cons_of_mem _ hd⟩
        · simp only [check_respawns, hl, if_neg hexp]
          exact ih lg htail hexp0 hled0
      | none =>
        simp only [check_respawns, hl]
        exact ih lg htail hexp0 hled0

/-- The updated flag of a pass is true exactly when some input record is
expired. -/
theorem check_respawns_updated (cd now : Int) (mk : String → NotifKey)
    (es : List (Tracked α)) : ∀ lg : Ledger,
    (check_respawns cd now mk es lg).updated =
      es.any (fun e => isExpired cd now e.last) := by
  induction es with
  | nil => intro lg; rfl
  | cons e rest ih =>
    intro lg
    cases hl : e.last with
    | some l =>
      by_cases hexp : now - l ≥ cd * 3600
      · by_cases hled : ledgerHas lg (mk e.tid)
        · simp [check_respawns, hl, if_pos hexp, if_pos hled, isExpired, hexp]
        · simp [check_respawns, hl, if_pos hexp, if_neg hled, isExpired, hexp]
      · simp [check_respawns, hl, if_neg hexp, isExpired, hexp, ih]
    | none => simp [check_respawns, hl, isExpired, ih]

/-- No cached record with an expired timestamp survives a pass. -/
theorem check_respawns_no_expired_left (cd now : Int) (mk : String → NotifKey)
    (es : List (Tracked α)) (lg : Ledger) (l : Int)
    (hl : isExpired cd now (some l) = true) :
    ∀ e2 ∈ (check_respawns cd now mk es lg).entries, e2.last ≠ some l := by
  rw [check_respawns_entries]
  intro e2 he2 hcontra
  obtain ⟨e1, _, he⟩ := List.mem_map.mp he2
  by_cases hexp : isExpired cd now e1.last
  · rw [if_pos hexp] at he
    rw [← he] at hcontra
    simp at hcontra
  · rw [if_neg hexp] at he
    rw [← he] at hcontra
    rw [hcontra] at hexp
    exact hexp hl

/-- Every surviving record value was already present on some input entry
that was not expired. -/
theorem check_respawns_last_trace (cd now : Int) (mk : String → NotifKey)
    (es : List (Tracked α)) (lg : Ledger) (l : Int) :
    ∀ e2 ∈ (check_respawns cd now mk es lg).entries, e2.last = some l →
    ∃ e1 ∈ es, e1.last = some l := by
  rw [check_respawns_entries]
  intro e2 he2 hlast
  obtain ⟨e1, he1, he⟩ := List.mem_map.mp he2
  by_cases hexp : isExpired cd now e1.last
  · rw [if_pos hexp] at he
    rw [← he] at hlast
    simp at hlast
  · rw [if_neg hexp] at he
    rw [← he] at hlast
    exact ⟨e1, he1, hlast⟩

/-- A list of notifications with pairwise distinct keys has at most one
notification per (key, record value) pair. -/
theorem notifCount_le_one_of_nodup (ns : List Notif)
    (h : (ns.map Notif.key).Nodup) (k : NotifKey) (l : Int) :
    notifCount ns k l ≤ 1 := by
  unfold notifCount
  calc ns.countP (fun n => decide (n.key = k ∧ n.lastAt = l))
      ≤ ns.countP (fun n => decide (n.key = k)) := by
        apply List.countP_mono_left
        intro n _ hn
        simp only [decide_eq_true_eq] at hn ⊢
        exact hn.1
    _ = (ns.map Notif.key).countP (fun x => decide (x = k)) := by
        rw [List.countP_map]
        rfl
    _ ≤ 1 := by
        have := List.nodup_iff_count_le_one.mp h k
        rw [List.count] at this
        calc (ns.map Notif.key).countP (fun x => decide (x = k))
            = (ns.map Notif.key).countP (fun x => x == k) := by
              apply List.countP_congr
              intro x _
              simp [beq_iff_eq]
          _ ≤ 1 := this

/-- The keys of all notifications of one tick are pairwise distinct: the
member pass emits distinct keys and inserts each into the ledger, and the
colony pass never emits a key the ledger has. -/
theorem countdown_tick_keys_nodup (cd now : Int) (s : TickState) :
    ((countdown_tick cd now s).notifs.map Notif.key).Nodup := by
  show ((check_respawns cd now NotifKey.member s.members (pruneLedger now s.ledger)).notifs
      ++ (check_respawns cd now NotifKey.colony s.colonies _).notifs).map Notif.key |>.Nodup
  rw [List.map_append]
  apply List.Nodup.append
  · exact check_respawns_keys_nodup cd now NotifKey.member s.members _
  · exact check_respawns_keys_nodup cd now NotifKey.colony s.colonies _
  · intro k hk1 hk2
    obtain ⟨n1, hn1, hkey1⟩ := List.mem_map.mp hk1
    obtain ⟨n2, hn2, hkey2⟩ := List.mem_map.mp hk2
    have hins := check_respawns_notif_inserted cd now NotifKey.member s.members
      (pruneLedger now s.ledger) n1 hn1
    have hhas : ledgerHas (check_respawns cd now NotifKey.member s.members
        (pruneLedger now s.ledger)).ledger k = true := by
      rw [← hkey1]
      exact ledgerHas_of_mem _ _ now hins
    exact check_respawns_suppressed cd now NotifKey.colony s.colonies k _
      hhas n2 hn2 hkey2

/-- Each tick notification traces back to a present, expired cache
record of the pre-tick state. -/
theorem countdown_tick_notif_src (cd now : Int) (s : TickState) :
    ∀ n ∈ (countdown_tick cd now s).notifs,
    ((∃ e ∈ s.members, NotifKey.member e.tid = n.key ∧ e.last = some n.lastAt) ∨
      (∃ e ∈ s.colonies, NotifKey.colony e.tid = n.key ∧ e.last = some n.lastAt)) ∧
      now - n.lastAt ≥ cd * 3600 ∧ n.sentAt = now := by
  intro n hn
  rcases List.mem_append.mp hn with hm | hc
  · obtain ⟨e, he, hkey, hlast, hexp, hsent⟩ :=
      check_respawns_notif_src cd now NotifKey.member s.members _ n hm
    exact ⟨Or.inl ⟨e, he, hkey, hlast⟩, hexp, hsent⟩
  · obtain ⟨e, he, hkey, hlast, hexp, hsent⟩ :=
      check_respawns_notif_src cd now NotifKey.colony s.colonies _ n hc
    exact ⟨Or.inr ⟨e, he, hkey, hlast⟩, hexp, hsent⟩

/-- A record value no cache entry carries is never notified for by a
tick. -/
theorem countdown_tick_no_notif_of_absent (cd now : Int) (s : TickState)
    (l : Int) (habs : absentLast s l) :
    ∀ n ∈ (countdown_tick cd now s).notifs, n.lastAt ≠ l := by
  intro n hn hcontra
  obtain ⟨hsrc, _, _⟩ := countdown_tick_notif_src cd now s n hn
  rcases hsrc with ⟨e, he, _, hlast⟩ | ⟨e, he, _, hlast⟩
  · exact habs.1 e he (hcontra ▸ hlast)
  · exact habs.2 e he (hcontra ▸ hlast)

/-- Absence of a record value is preserved by a tick. -/
theorem countdown_tick_absent_preserved (cd now : Int) (s : TickState)
    (l : Int) (habs : absentLast s l) :
    absentLast (countdown_tick cd now s).state l := by
  constructor
  · intro e2 he2 hcontra
    obtain ⟨e1, he1, hlast⟩ :=
      check_respawns_last_trace cd now NotifKey.member s.members _ l e2 he2 hcontra
    exact habs.1 e1 he1 hlast
  · intro e2 he2 hcontra
    obtain ⟨e1, he1, hlast⟩ :=
      check_respawns_last_trace cd now NotifKey.colony s.colonies _ l e2 he2 hcontra
    exact habs.2 e1 he1 hlast

/-- After a tick notifies for a record value, no cache entry carries that
value any more. -/
theorem countdown_tick_notif_clears (cd now : Int) (s : TickState)
    (n : Notif) (hn : n ∈ (countdown_tick cd now s).notifs) :
    absentLast (countdown_tick cd now s).state n.lastAt := by
  obtain ⟨_, hexp, _⟩ := countdown_tick_notif_src cd now s n hn
  have hexpb : isExpired cd now (some n.lastAt) = true := by
    simp [isExpired, hexp]
  constructor
  · exact check_respawns_no_expired_left cd now NotifKey.member s.members _ n.lastAt hexpb
  · exact check_respawns_no_expired_left cd now NotifKey.colony s.colonies _ n.lastAt hexpb

/-- A run of ticks from a state without the record value l never notifies
for l. -/
theorem run_countdown_absent (cd : Int) (l : Int) (k : NotifKey) :
    ∀ (ts : List Int) (s : TickState), absentLast s l →
    notifCount (run_countdown cd s ts).2 k l = 0 := by
  intro ts
  induction ts with
  | nil => intro s _; rfl
  | cons t ts ih =>
    intro s habs
    show notifCount ((countdown_tick cd t s).notifs ++
      (run_countdown cd (countdown_tick cd t s).state ts).2) k l = 0
    unfold notifCount
    rw [List.countP_append]
    have h1 : notifCount (countdown_tick cd t s).notifs k l = 0 := by
      unfold notifCount
      rw [List.countP_eq_zero]
      intro n hn
      simp only [decide_eq_true_eq, not_and]
      intro _
      exact countdown_tick_no_notif_of_absent cd t s l habs n hn
    have h2 := ih (countdown_tick cd t s).state
      (countdown_tick_absent_preserved cd t s l habs)
    unfold notifCount at h1 h2
    omega

/-- Claim C1: for every sequence of reconciler ticks of one session, each
(target key, cached record value) pair — hence each
(target id, expiry instant) pair, the expiry instant being the record
value plus the cooldown — causes at most one externally visible respawn
notification; on any single tick a notification for a target is emitted
only if the pruned ledger has no entry for the notification key of the
target
key, and emitting it inserts the key (with the tick instant) into the
ledger the tick leaves behind. -/
theorem claim_C1 (cd : Int) (s : TickState) (ts : List Int) (k : NotifKey)
    (l : Int) (now : Int) :
    notifCount (run_countdown cd s ts).2 k l ≤ 1 ∧
    (ledgerHas (pruneLedger now s.ledger) k = true →
      ∀ n ∈ (countdown_tick cd now s).notifs, n.key ≠ k) ∧
    (∀ n ∈ (countdown_tick cd now s).notifs,
      (n.key, now) ∈ (countdown_tick cd now s).state.ledger) := by
  refine ⟨?_, ?_, ?_⟩
  · induction ts generalizing s with
    | nil => simp [run_countdown, notifCount]
    | cons t ts ih =>
      show notifCount ((countdown_tick cd t s).notifs ++
        (run_countdown cd (countdown_tick cd t s).state ts).2) k l ≤ 1
      unfold notifCount
      rw [List.countP_append]
      by_cases hex : ∃ n ∈ (countdown_tick cd t s).notifs, n.key = k ∧ n.lastAt = l
      · obtain ⟨n, hn, hk, hl⟩ := hex
        have htick : notifCount (countdown_tick cd t s).notifs k l ≤ 1 :=
          notifCount_le_one_of_nodup _ (countdown_tick_keys_nodup cd t s) k l
        have hrest : notifCount
            (run_countdown cd (countdown_tick cd t s).state ts).2 k l = 0 := by
          apply run_countdown_absent
          have hclr := countdown_tick_notif_clears cd t s n hn
          rw [hl] at hclr
          exact hclr
        unfold notifCount at htick hrest
        omega
      · have htick : (countdown_tick cd t s).notifs.countP
            (fun n => decide (n.key = k ∧ n.lastAt = l)) = 0 := by
          rw [List.countP_eq_zero]
          intro n hn
          simp only [decide_eq_true_eq, not_and]
          intro h1 h2
          exact hex ⟨n, hn, h1, h2⟩
        have hrest := ih (countdown_tick cd t s).state
        unfold notifCount at hrest
        omega
  · intro hhas n hn
    rcases List.mem_append.mp hn with hm | hc
    · exact check_respawns_suppressed cd now NotifKey.member s.members k _
        hhas n hm
    · exact check_respawns_suppressed cd now NotifKey.colony s.colonies k _
        (check_respawns_ledgerHas_grows cd now NotifKey.member s.members _ k hhas)
        n hc
  · intro n hn
    rcases List.mem_append.mp hn with hm | hc
    · exact check_respawns_ledger_grows cd now NotifKey.colony s.colonies _ _
        (check_respawns_notif_inserted cd now NotifKey.member s.members _ n hm)
    · exact check_respawns_notif_inserted cd now NotifKey.colony s.colonies _ n hc

/-- Witness for C1 at a concrete session: one member expired at the tick
instant 14400 with its key already in the ledger (inserted at 14390, so
surviving the prune), followed by a second tick. -/
theorem claim_C1_witness :
    notifCount (run_countdown 4 ⟨[⟨"A", some 0, 5⟩], [],
        [(NotifKey.member ("A"), 14390)]⟩ [14400, 18200]).2
      (NotifKey.member ("A")) 0 ≤ 1 ∧
    (∀ n ∈ (countdown_tick 4 14400 ⟨[⟨"A", some 0, 5⟩], [],
        [(NotifKey.member ("A"), 14390)]⟩).notifs,
      n.key ≠ NotifKey.member ("A")) :=
  ⟨(claim_C1 4 ⟨[⟨"A", some 0, 5⟩], [], [(NotifKey.member ("A"), 14390)]⟩
      [14400, 18200] (NotifKey.member ("A")) 0 14400).1,
    (claim_C1 4 ⟨[⟨"A", some 0, 5⟩], [], [(NotifKey.member ("A"), 14390)]⟩
      [14400, 18200] (NotifKey.member ("A")) 0 14400).2.1 (by decide)⟩

/-- A list of notifications with pairwise distinct keys has at most one
notification per key. -/
theorem keyCount_le_one_of_nodup (ns : List Notif)
    (h : (ns.map Notif.key).Nodup) (k : NotifKey) :
    keyCount ns k ≤ 1 := by
  unfold keyCount
  calc ns.countP (fun n => decide (n.key = k))
      = (ns.map Notif.key).countP (fun x => decide (x = k)) := by
        rw [List.countP_map]
        rfl
    _ ≤ 1 := by
        have hcount := List.nodup_iff_count_le_one.mp h k
        rw [List.count] at hcount
        calc (ns.map Notif.key).countP (fun x => decide (x = k))
            = (ns.map Notif.key).countP (fun x => x == k) := by
              apply List.countP_congr
              intro x _
              simp [beq_iff_eq]
          _ ≤ 1 := hcount

/-- Claim C2, counterexample to the claim as stated: the session below has a
tracked member whose record is present and expired at the tick instant
(now - last = 14400 >= 4 * 3600), yet because the ledger already has the
notification key of the member (inserted 10 seconds before the tick, so
surviving the prune) the tick emits no notification at all and schedules
no store DELETE — not exactly one of each, as the claim requires of
every such tick. -/
theorem claim_C2_counterexample :
    (⟨"A", some 0, 5⟩ : Tracked Int) ∈
        (⟨[⟨"A", some 0, 5⟩], [], [(NotifKey.member ("A"), 14390)]⟩ :
          TickState).members ∧
    ((14400 : Int) - 0 ≥ 4 * 3600) = True ∧
    (countdown_tick 4 14400
      ⟨[⟨"A", some 0, 5⟩], [], [(NotifKey.member ("A"), 14390)]⟩).notifs = [] ∧
    (countdown_tick 4 14400
      ⟨[⟨"A", some 0, 5⟩], [], [(NotifKey.member ("A"), 14390)]⟩).deleteSet = [] := by
  refine ⟨by decide, by simp, by decide, by decide⟩

/-- Claim C2 as amended: on every reconciler tick where a tracked member has a
present record with now - last >= cd hours AND the notification key of
the member is absent from the pruned ledger, the tick emits exactly one
notification for that key, replaces the cache entry of the member by the
entry with the timestamp cleared, schedules the member id for the store
DELETE (so the durable record is gone after the batch delete), and
raises the updated flag that triggers the re-render; any later render of
the cleared entry shows the clickable "Attacked" button with no cooldown
label and no expiry.  (When the key is already in the ledger the tick
still clears the cache and re-renders but emits nothing and deletes
nothing, as the counterexample shows.) -/
theorem claim_C2 (cd now : Int) (s : TickState) (m : Tracked Int)
    (hm : m ∈ s.members) (l : Int) (hl : m.last = some l)
    (hexp : now - l ≥ cd * 3600)
    (hled : ledgerHas (pruneLedger now s.ledger) (NotifKey.member m.tid) = false)
    (store : List (String × Int)) (now2 : Int) :
    keyCount (countdown_tick cd now s).notifs (NotifKey.member m.tid) = 1 ∧
    { m with last := none } ∈ (countdown_tick cd now s).state.members ∧
    m.tid ∈ (countdown_tick cd now s).deleteSet ∧
    (countdown_tick cd now s).updated = true ∧
    (∀ p ∈ applyDeletes store (countdown_tick cd now s).deleteSet, p.1 ≠ m.tid) ∧
    (make_attack_button cd none now2).label = "Attacked" ∧
    (make_attack_button cd none now2).disabled = false ∧
    (make_attack_button cd none now2).expiry = none := by
  have hexpb : isExpired cd now m.last = true := by
    rw [hl]
    simp [isExpired, hexp]
  have hinj : ∀ a b, NotifKey.member a = NotifKey.member b → a = b := by
    intro a b h
    exact NotifKey.member.inj h
  obtain ⟨⟨n, hn, hk⟩, hdel⟩ := check_respawns_emits cd now NotifKey.member hinj
    s.members m (pruneLedger now s.ledger) hm hexpb hled
  have hmemnotifs : n ∈ (countdown_tick cd now s).notifs :=
    List.mem_append_left _ hn
  have hmemdels : m.tid ∈ (countdown_tick cd now s).deleteSet :=
    List.mem_append_left _ hdel
  refine ⟨?_, ?_, hmemdels, ?_, ?_, rfl, rfl, rfl⟩
  · apply le_antisymm
    · exact keyCount_le_one_of_nodup _ (countdown_tick_keys_nodup cd now s) _
    · have : 0 < keyCount (countdown_tick cd now s).notifs (NotifKey.member m.tid) := by
        unfold keyCount
        rw [List.countP_pos_iff]
        exact ⟨n, hmemnotifs, by simp [hk]⟩
      omega
  · show { m with last := none } ∈
      (check_respawns cd now NotifKey.member s.members (pruneLedger now s.ledger)).entries
    rw [check_respawns_entries]
    have himg : (fun e => if isExpired cd now e.last then
        { e with last := none } else e) m = { m with last := none } := by
      simp [hexpb]
    rw [← himg]
    exact List.mem_map_of_mem _ hm
  · show ((check_respawns cd now NotifKey.member s.members (pruneLedger now s.ledger)).updated
      || (check_respawns cd now NotifKey.colony s.colonies _).updated) = true
    rw [check_respawns_updated]
    have : s.members.any (fun e => isExpired cd now e.last) = true :=
      List.any_eq_true.mpr ⟨m, hm, hexpb⟩
    rw [this]
    rfl
  · intro p hp
    unfold applyDeletes at hp
    have := List.mem_filter.mp hp
    intro hcontra
    rw [decide_eq_true_eq] at this
    exact this.2 (hcontra ▸ hmemdels)

/-- Witness for C2 at a concrete session: one member attacked at 0,
tick at 14400 with cooldown 4 h and an empty ledger. -/
theorem claim_C2_witness :
    keyCount (countdown_tick 4 14400 ⟨[⟨"A", some 0, 5⟩], [], []⟩).notifs
      (NotifKey.member ("A")) = 1 ∧
    (⟨"A", none, 5⟩ : Tracked Int) ∈
      (countdown_tick 4 14400 ⟨[⟨"A", some 0, 5⟩], [], []⟩).state.members ∧
    "A" ∈ (countdown_tick 4 14400 ⟨[⟨"A", some 0, 5⟩], [], []⟩).deleteSet ∧
    (countdown_tick 4 14400 ⟨[⟨"A", some 0, 5⟩], [], []⟩).updated = true ∧
    (∀ p ∈ applyDeletes [("A", 0)]
      (countdown_tick 4 14400 ⟨[⟨"A", some 0, 5⟩], [], []⟩).deleteSet,
      p.1 ≠ "A") ∧
    (make_attack_button 4 none 99999).label = "Attacked" ∧
    (make_attack_button 4 none 99999).disabled = false ∧
    (make_attack_button 4 none 99999).expiry = none :=
  claim_C2 4 14400 ⟨[⟨"A", some 0, 5⟩], [], []⟩ ⟨"A", some 0, 5⟩
    (by decide) 0 rfl (by norm_num) (by decide) [("A", 0)] 99999

/-- Claim C3, counterexample to the claim as stated: at the very
concrete scenario (cooldown 4 h, action at 0, query at 3 h 59 m) the
label is indeed "1min" but the button is NOT disabled — rebuild_view
always renders attack buttons with disabled = False — and at a remaining
time of exactly 2 h the rendered label is "4hr" (the f-string
interpolates self.cd, and uses the suffix "hr"), not the "2h" the claim
prescribes (hours of the remaining time itself, suffix "h"). -/
theorem claim_C3_counterexample :
    (make_attack_button 4 (some 0) 14340).label = "1min" ∧
    (make_attack_button 4 (some 0) 14340).disabled = false ∧
    (make_attack_button 4 (some 0) 7200).label = "4hr" ∧
    claimLabel (remainingOf 4 0 7200) = "2h" ∧
    ("4hr" : String) ≠ "2h" := by
  refine ⟨by decide, rfl, by decide, by decide, by decide⟩

/-- Claim C3 as amended: for every target with remaining cooldown r, the
rendered attack button is clickable (disabled = false, danger style)
rather than disabled; if r < 1 hour the label is "{M}min" with M the
minutes of r rounded up (characterized by 60(M-1) < r <= 60M); if
r >= 1 hour the label is "{cd}hr" when the leftover minutes are zero
(the source interpolates the full cooldown, not the hours of r) and
"{H}hr {M}min" otherwise, H and M characterized by
3600H + 60M <= r < 3600H + 60(M+1) with 0 <= M < 60.  In particular at
cooldown 4 h and query 3 h 59 m after the action the label is "1min"
and the button stays clickable. -/
theorem claim_C3 (cd l now : Int) (M H Mn : Int) :
    (make_attack_button cd (some l) now).disabled = false ∧
    (make_attack_button cd (some l) now).style = BtnStyle.danger ∧
    (remainingOf cd l now < 3600 → 60 * (M - 1) < remainingOf cd l now →
      remainingOf cd l now ≤ 60 * M →
      (make_attack_button cd (some l) now).label = toString M ++ "min") ∧
    (3600 ≤ remainingOf cd l now →
      3600 * H + 60 * Mn ≤ remainingOf cd l now →
      remainingOf cd l now < 3600 * H + 60 * (Mn + 1) →
      0 ≤ Mn → Mn < 60 →
      ((Mn = 0 →
        (make_attack_button cd (some l) now).label = toString cd ++ "hr") ∧
       (0 < Mn →
        (make_attack_button cd (some l) now).label =
          toString H ++ "hr " ++ toString Mn ++ "min"))) := by
  have hlabel : (make_attack_button cd (some l) now).label =
      cooldownLabel cd (remainingOf cd l now) := rfl
  have hnonneg : 0 ≤ remainingOf cd l now := by
    unfold remainingOf
    exact le_max_left 0 _
  refine ⟨rfl, rfl, ?_, ?_⟩
  · intro hlt hlo hhi
    rw [hlabel]
    unfold cooldownLabel
    rw [if_neg (by omega)]
    have hM : (remainingOf cd l now + 59) / 60 = M := by omega
    rw [hM]
  · intro hge hlo hhi hm0 hm60
    rw [hlabel]
    unfold cooldownLabel
    rw [if_pos hge]
    have hH : remainingOf cd l now / 3600 = H := by omega
    have hMn : remainingOf cd l now % 3600 / 60 = Mn := by omega
    constructor
    · intro hz
      rw [hMn, if_pos hz]
    · intro hpos
      rw [hMn, if_neg (by omega), hH]

/-- Witness for C3: the minutes branch at the 3 h 59 m scenario of the claim
(label "1min", clickable), the zero-minutes hour branch at a remaining
time of exactly 2 h (label shows the full cooldown "4hr"), and the
general hour branch at remaining 2 h 59 m. -/
theorem claim_C3_witness :
    (make_attack_button 4 (some 0) 14340).label = toString (1 : Int) ++ "min" ∧
    (make_attack_button 4 (some 0) 14340).disabled = false ∧
    (make_attack_button 4 (some 0) 7200).label = toString (4 : Int) ++ "hr" ∧
    (make_attack_button 4 (some 0) 3660).label =
      toString (2 : Int) ++ "hr " ++ toString (59 : Int) ++ "min" :=
  ⟨(claim_C3 4 0 14340 1 0 0).2.2.1 (by decide) (by decide) (by decide),
    (claim_C3 4 0 14340 1 0 0).1,
    ((claim_C3 4 0 7200 0 2 0).2.2.2 (by decide) (by decide) (by decide)
      (by decide) (by decide)).1 rfl,
    ((claim_C3 4 0 3660 0 2 59).2.2.2 (by decide) (by decide) (by decide)
      (by decide) (by decide)).2 (by decide)⟩

/-- Claim C4: the remaining cooldown the renderer computes equals
max(0, cd hours - (now - last)); for fixed last and cooldown it is
non-increasing in now and is exactly 0 at now = last + cd hours; the
rendered label is derived from exactly this value. -/
theorem claim_C4 (cd l now now1 now2 : Int) :
    remainingOf cd l now = max 0 (cd * 3600 - (now - l)) ∧
    (now1 ≤ now2 → remainingOf cd l now2 ≤ remainingOf cd l now1) ∧
    remainingOf cd l (l + cd * 3600) = 0 ∧
    (make_attack_button cd (some l) now).label =
      cooldownLabel cd (remainingOf cd l now) := by
  refine ⟨rfl, ?_, ?_, rfl⟩
  · intro h
    unfold remainingOf
    omega
  · unfold remainingOf
    omega

/-- Witness for C4 at cooldown 4 h, action at 100, instants 200 and 300. -/
theorem claim_C4_witness :
    remainingOf 4 100 200 = max 0 (4 * 3600 - (200 - 100)) ∧
    remainingOf 4 100 300 ≤ remainingOf 4 100 200 ∧
    remainingOf 4 100 (100 + 4 * 3600) = 0 :=
  ⟨(claim_C4 4 100 200 200 300).1,
    (claim_C4 4 100 200 200 300).2.1 (by decide),
    (claim_C4 4 100 200 200 300).2.2.1⟩

/-!
Lemmas about the paginated grid.
-/

/-- When a candidate cell is a given triple. -/
theorem cellOf_eq_some (p n r0 c0 : Nat) (x : Nat × Nat × Nat) :
    cellOf p n r0 c0 = some x ↔
      (x = (r0, c0, p * 8 + (c0 * 4 + r0)) ∧ p * 8 + (c0 * 4 + r0) < n) := by
  have hdef : cellOf p n r0 c0 =
      if p * 8 + (c0 * 4 + r0) < n then
        some (r0, c0, p * 8 + (c0 * 4 + r0)) else none := rfl
  rw [hdef]
  split_ifs with h
  · constructor
    · intro hx
      exact ⟨(Option.some.inj hx).symm, h⟩
    · intro hx
      rw [hx.1]
  · constructor
    · intro hx
      exact absurd hx (by simp)
    · intro hx
      exact absurd hx.2 h

/-- Membership in one grid row. -/
theorem gridRow_mem (p n r0 : Nat) (x : Nat × Nat × Nat) :
    x ∈ gridRow p n r0 ↔
      (cellOf p n r0 0 = some x ∨ cellOf p n r0 1 = some x) := by
  unfold gridRow
  rw [List.mem_append, Option.mem_toList, Option.mem_toList, Option.mem_def,
    Option.mem_def]

/-- Membership in the populated cells, spelled per candidate cell. -/
theorem gridCells_mem_aux (p n : Nat) (x : Nat × Nat × Nat) :
    x ∈ gridCells p n ↔
      (cellOf p n 0 0 = some x ∨ cellOf p n 0 1 = some x ∨
       cellOf p n 1 0 = some x ∨ cellOf p n 1 1 = some x ∨
       cellOf p n 2 0 = some x ∨ cellOf p n 2 1 = some x ∨
       cellOf p n 3 0 = some x ∨ cellOf p n 3 1 = some x) := by
  unfold gridCells
  rw [List.mem_append, List.mem_append, List.mem_append,
    gridRow_mem, gridRow_mem, gridRow_mem, gridRow_mem]
  tauto

/-- Membership in the populated cells of a page: exactly the triples
(r, c, p * 8 + (c * 4 + r)) with r < 4, c < 2 and the index inside the
cache. -/
theorem gridCells_mem (p n r c i : Nat) :
    (r, c, i) ∈ gridCells p n ↔
      (r < 4 ∧ c < 2 ∧ i = p * 8 + (c * 4 + r) ∧ i < n) := by
  rw [gridCells_mem_aux]
  constructor
  · rintro (h | h | h | h | h | h | h | h) <;>
      (rw [cellOf_eq_some] at h
       obtain ⟨hx, hlt⟩ := h
       simp only [Prod.mk.injEq] at hx
       omega)
  · rintro ⟨hr, hc, hi, hlt⟩
    have hsel : cellOf p n r c = some (r, c, i) := by
      rw [cellOf_eq_some]
      exact ⟨by rw [hi], by omega⟩
    interval_cases r <;> interval_cases c <;>
      first
        | exact Or.inl hsel
        | exact Or.inr (Or.inl hsel)
        | exact Or.inr (Or.inr (Or.inl hsel))
        | exact Or.inr (Or.inr (Or.inr (Or.inl hsel)))
        | exact Or.inr (Or.inr (Or.inr (Or.inr (Or.inl hsel))))
        | exact Or.inr (Or.inr (Or.inr (Or.inr (Or.inr (Or.inl hsel)))))
        | exact Or.inr (Or.inr (Or.inr (Or.inr (Or.inr (Or.inr (Or.inl hsel))))))
        | exact Or.inr (Or.inr (Or.inr (Or.inr (Or.inr (Or.inr (Or.inr hsel))))))

/-- The indices shown on a page are exactly the cache indices in
[8p, 8p + 8) that exist. -/
theorem pageIndices_mem (p n i : Nat) :
    i ∈ pageIndices p n ↔ (8 * p ≤ i ∧ i < 8 * p + 8 ∧ i < n) := by
  unfold pageIndices
  rw [List.mem_map]
  constructor
  · rintro ⟨⟨r, c, j⟩, hmem, hj⟩
    obtain ⟨h1, h2, h3, h4⟩ := (gridCells_mem p n r c j).mp hmem
    simp only at hj
    omega
  · intro h
    refine ⟨((i - 8 * p) % 4, (i - 8 * p) / 4, i), ?_, rfl⟩
    rw [gridCells_mem]
    omega

/-- A page that is not the last shows exactly 8 targets. -/
theorem pageIndices_length_full (p n : Nat) (h : 8 * (p + 1) ≤ n) :
    (pageIndices p n).length = 8 := by
  unfold pageIndices gridCells gridRow cellOf
  rw [if_pos (show p * 8 + (0 * 4 + 0) < n by omega),
    if_pos (show p * 8 + (1 * 4 + 0) < n by omega),
    if_pos (show p * 8 + (0 * 4 + 1) < n by omega),
    if_pos (show p * 8 + (1 * 4 + 1) < n by omega),
    if_pos (show p * 8 + (0 * 4 + 2) < n by omega),
    if_pos (show p * 8 + (1 * 4 + 2) < n by omega),
    if_pos (show p * 8 + (0 * 4 + 3) < n by omega),
    if_pos (show p * 8 + (1 * 4 + 3) < n by omega)]
  rfl

/-- Claim C5: every cache index below n is shown on exactly one page, namely
page i / 8, among the totalPages n pages; every page other than the last
shows exactly 8 targets; and in the concrete scenario of 17 targets the
pages show [8, 8, 1] targets and requesting page 2 (0-indexed, after
clamping) yields exactly 1 target. -/
theorem claim_C5 (n i p : Nat) :
    (i < n → (i / 8 < totalPages n ∧ i ∈ pageIndices (i / 8) n ∧
      ∀ q, i ∈ pageIndices q n → q = i / 8)) ∧
    (p + 1 < totalPages n → (pageIndices p n).length = 8) ∧
    totalPages 17 = 3 ∧
    (List.range (totalPages 17)).map (fun q => (pageIndices q 17).length)
      = [8, 8, 1] ∧
    (pageIndices (clampPage 2 17) 17).length = 1 := by
  refine ⟨?_, ?_, by decide, by decide, by decide⟩
  · intro hin
    refine ⟨?_, ?_, ?_⟩
    · unfold totalPages
      rw [if_neg (by omega)]
      omega
    · rw [pageIndices_mem]
      omega
    · intro q hq
      rw [pageIndices_mem] at hq
      omega
  · intro hp
    apply pageIndices_length_full
    unfold totalPages at hp
    by_cases hn : n = 0
    · rw [if_pos hn] at hp
      omega
    · rw [if_neg hn] at hp
      omega

/-- Witness for C5 at 17 targets: index 9 lands on page 1 = 9 / 8 and
only there, and page 0 is full. -/
theorem claim_C5_witness :
    9 / 8 < totalPages 17 ∧ (9 : Nat) ∈ pageIndices (9 / 8) 17 ∧
    (1 : Nat) = 9 / 8 ∧ (pageIndices 0 17).length = 8 :=
  ⟨((claim_C5 17 9 0).1 (by decide)).1,
    ((claim_C5 17 9 0).1 (by decide)).2.1,
    ((claim_C5 17 9 0).1 (by decide)).2.2 1 (by decide),
    (claim_C5 17 9 0).2.1 (by decide)⟩

/-- The populated cells of a rendered page, characterized: cell (r, c)
shows the cache entry at index page * 8 + (c * 4 + r) of the swept
cache, with its attack button. -/
theorem rebuild_view_cells_mem (cd now : Int) (cache : List (Tracked Int))
    (page : Int) (r c : Nat) (e : Tracked Int) (b : AttackBtn) :
    (r, c, e, b) ∈ (rebuild_view cd now cache page).cells ↔
      ∃ i, (r, c, i) ∈ gridCells
          (clampPage page (clear_expired_cache cd now cache).length)
          (clear_expired_cache cd now cache).length ∧
        (clear_expired_cache cd now cache).get? i = some e ∧
        b = make_attack_button cd e.last now := by
  have hc : (rebuild_view cd now cache page).cells =
      (gridCells (clampPage page (clear_expired_cache cd now cache).length)
        (clear_expired_cache cd now cache).length).filterMap
        (fun rc => ((clear_expired_cache cd now cache).get? rc.2.2).map
          (fun e => (rc.1, rc.2.1, e, make_attack_button cd e.last now))) := rfl
  rw [hc, List.mem_filterMap]
  constructor
  · rintro ⟨⟨r0, c0, i⟩, hmem, heq⟩
    rw [Option.map_eq_some'] at heq
    obtain ⟨e1, hget, hmk⟩ := heq
    simp only [Prod.mk.injEq] at hmk
    obtain ⟨hr, hcq, he, hb⟩ := hmk
    subst hr
    subst hcq
    subst he
    exact ⟨i, hmem, hget, hb.symm⟩
  · rintro ⟨i, hmem, hget, hb⟩
    refine ⟨(r, c, i), hmem, ?_⟩
    rw [hget]
    simp [hb]

/-- Claim C6: targets are assigned to grid cells in column-major order within
the page — the cell at (row, column) of page p shows cache index
p * 8 + (column * 4 + row), with 4 rows and 2 columns; total pages is at
least 1 and equals the ceiling of count / 8 for a non-empty cache; the
requested page is clamped into [0, total - 1] and kept as is when
already in range; and the rendered cells of rebuild_view are exactly the
cache entries at those indices with their attack buttons. -/
theorem claim_C6 (p n r c i : Nat) (page cd now : Int)
    (cache : List (Tracked Int)) (e : Tracked Int) (b : AttackBtn) :
    ((r, c, i) ∈ gridCells p n ↔
      (r < 4 ∧ c < 2 ∧ i = p * 8 + (c * 4 + r) ∧ i < n)) ∧
    1 ≤ totalPages n ∧
    (0 < n → (8 * (totalPages n - 1) < n ∧ n ≤ 8 * totalPages n)) ∧
    clampPage page n < totalPages n ∧
    (0 ≤ page → page < (totalPages n : Int) → (clampPage page n : Int) = page) ∧
    ((r, c, e, b) ∈ (rebuild_view cd now cache page).cells ↔
      ∃ j, (r, c, j) ∈ gridCells
          (clampPage page (clear_expired_cache cd now cache).length)
          (clear_expired_cache cd now cache).length ∧
        (clear_expired_cache cd now cache).get? j = some e ∧
        b = make_attack_button cd e.last now) := by
  refine ⟨gridCells_mem p n r c i, ?_, ?_, ?_, ?_,
    rebuild_view_cells_mem cd now cache page r c e b⟩
  · unfold totalPages
    split_ifs <;> omega
  · intro hn
    unfold totalPages
    rw [if_neg (by omega)]
    omega
  · unfold clampPage totalPages
    split_ifs <;> omega
  · intro h0 hlt
    unfold clampPage
    rw [if_neg (by omega), if_neg (by omega)]
    omega

/-- Witness for C6 at 17 cached targets: cell (2, 1) of page 1 shows
index 14 = 1 * 8 + (1 * 4 + 2); a page request of 2 is kept; the cell
membership is realized on a concrete rendered page. -/
theorem claim_C6_witness :
    (2, 1, 14) ∈ gridCells 1 17 ∧
    1 ≤ totalPages 17 ∧
    (8 * (totalPages 17 - 1) < 17 ∧ 17 ≤ 8 * totalPages 17) ∧
    clampPage 2 17 < totalPages 17 ∧
    (clampPage 2 17 : Int) = 2 ∧
    (2, 1, (⟨"A", none, 5⟩ : Tracked Int), make_attack_button 4 none 0) ∈
      (rebuild_view 4 0 (List.replicate 17 (⟨"A", none, 5⟩ : Tracked Int))
        1).cells :=
  ⟨(claim_C6 1 17 2 1 14 2 4 0 [] ⟨"A", none, 5⟩
      (make_attack_button 4 none 0)).1.mpr (by decide),
    (claim_C6 1 17 2 1 14 2 4 0 [] ⟨"A", none, 5⟩
      (make_attack_button 4 none 0)).2.1,
    (claim_C6 1 17 2 1 14 2 4 0 [] ⟨"A", none, 5⟩
      (make_attack_button 4 none 0)).2.2.1 (by decide),
    (claim_C6 1 17 2 1 14 2 4 0 [] ⟨"A", none, 5⟩
      (make_attack_button 4 none 0)).2.2.2.1,
    (claim_C6 1 17 2 1 14 2 4 0 [] ⟨"A", none, 5⟩
      (make_attack_button 4 none 0)).2.2.2.2.1 (by decide) (by decide),
    (claim_C6 1 17 2 1 14 1 4 0
      (List.replicate 17 (⟨"A", none, 5⟩ : Tracked Int)) ⟨"A", none, 5⟩
      (make_attack_button 4 none 0)).2.2.2.2.2.mpr
      ⟨14, by decide, by decide, rfl⟩⟩

/-- Claim C7, counterexample to the claim as stated: the first page (page 0)
of a 17-target grid is rendered without the Previous pagination control
— rebuild_view only adds it when current_page > 0 — so not all four
controls are part of every rendered page. -/
theorem claim_C7_counterexample :
    Control.prev ∉
      (rebuild_view 4 0 (List.replicate 17 (⟨"A", none, 5⟩ : Tracked Int))
        0).controls := by
  decide

/-- Claim C7 as amended: every rendered page carries the Refresh, mode-switch
and page-tracker controls; the Previous control is present exactly on
pages after the first and the Next control exactly on pages before the
last; the controls of rebuild_view are exactly these for the clamped
page and total page count. -/
theorem claim_C7 (p total : Nat) (page cd now : Int)
    (cache : List (Tracked Int)) :
    Control.refresh ∈ controlsFor p total ∧
    Control.modeSwitch ∈ controlsFor p total ∧
    Control.tracker ∈ controlsFor p total ∧
    (Control.prev ∈ controlsFor p total ↔ 0 < p) ∧
    (Control.next ∈ controlsFor p total ↔ p < total - 1) ∧
    (rebuild_view cd now cache page).controls =
      controlsFor (clampPage page (clear_expired_cache cd now cache).length)
        (totalPages (clear_expired_cache cd now cache).length) := by
  refine ⟨?_, ?_, ?_, ?_, ?_, rfl⟩ <;>
    unfold controlsFor <;> split_ifs <;> simp_all

/-- A loop that sees only generic update errors (and error-free ticks
with nothing to update, or caught tick-level errors) does not stop while
the running error count stays below 5. -/
theorem run_loop_few_errors (os : List TickOutcome) : ∀ st : LoopCtl,
    (∀ o ∈ os, o = TickOutcome.editError ∨ o = TickOutcome.noUpdate ∨
      o = TickOutcome.tickError) →
    st.stopped = false →
    st.localErr + os.countP (fun o => decide (o = TickOutcome.editError)) < 5 →
    (run_loop st os).stopped = false := by
  induction os with
  | nil => intro st _ hstop _; exact hstop
  | cons o os ih =>
    intro st hall hstop hcount
    rw [List.countP_cons] at hcount
    have hrun : run_loop st (o :: os) = run_loop (loop_step st o) os := rfl
    rw [hrun]
    rcases hall o (List.mem_cons_self _ _) with h | h | h <;> subst h <;>
      simp only [decide_eq_true_eq, if_pos, if_neg, reduceCtorEq, if_false,
        decide_True, decide_False, if_true] at hcount
    · have hstep : loop_step st TickOutcome.editError =
          ⟨st.selfErr, st.localErr + 1, decide (st.localErr + 1 ≥ 5)⟩ := by
        simp [loop_step, hstop]
      rw [hstep]
      apply ih
      · intro o ho
        exact hall o (List.mem_cons_of_mem _ ho)
      · simp only [decide_eq_false_iff_not]
        omega
      · simp only
        omega
    · have hstep : loop_step st TickOutcome.noUpdate = st := by
        simp [loop_step, hstop]
      rw [hstep]
      apply ih _ (fun o ho => hall o (List.mem_cons_of_mem _ ho)) hstop
      omega
    · have hstep : loop_step st TickOutcome.tickError = st := by
        simp [loop_step, hstop]
      rw [hstep]
      apply ih _ (fun o ho => hall o (List.mem_cons_of_mem _ ho)) hstop
      omega

/-- Claim C8, counterexample to the claim as stated: three
reference-refresh failures stop the loop although they are not
consecutive — two fully successful updates sit between them, each of
which resets only the local error counter, never self.error_count — and
at the stop the consecutive update-error count is still 0, far below
the threshold of 5.  So the loop does stop on fewer than 5 consecutive
errors, and not every counter is reset by a successful update. -/
theorem claim_C8_counterexample :
    (run_loop initCtl [TickOutcome.refreshFail, TickOutcome.editOk,
      TickOutcome.refreshFail, TickOutcome.editOk,
      TickOutcome.refreshFail]).stopped = true ∧
    (run_loop initCtl [TickOutcome.refreshFail, TickOutcome.editOk,
      TickOutcome.refreshFail, TickOutcome.editOk,
      TickOutcome.refreshFail]).localErr = 0 := by
  refine ⟨by decide, by decide⟩

/-- Claim C8 as amended: failures of the view-update block stop the loop
only when the consecutive count reaches 5, the local counter being reset
to 0 by a successful update — this covers failures on the own message of
the session too, a deleted message or lost permission included, because
the handlers at views.py lines 616-621 reference the unbound name
discord and the resulting NameError is counted at line 639 like any
other update error, so there is no immediate stop — and a sibling-walk
failure lands after the reset, leaving the count at 1 and never stopping
the loop by itself; but reference-refresh failures stop the loop when
the separate, never-reset self.error_count reaches 3, even when they are
not consecutive; a stopped loop ignores every further outcome until
externally restarted. -/
theorem claim_C8 (st : LoopCtl) (os : List TickOutcome) (o : TickOutcome) :
    ((∀ o2 ∈ os, o2 = TickOutcome.editError ∨ o2 = TickOutcome.noUpdate ∨
        o2 = TickOutcome.tickError) →
      os.countP (fun o2 => decide (o2 = TickOutcome.editError)) < 5 →
      (run_loop initCtl os).stopped = false) ∧
    (st.stopped = false → (loop_step st TickOutcome.editOk).localErr = 0) ∧
    (st.stopped = false → st.localErr = 4 →
      (loop_step st TickOutcome.editError).stopped = true) ∧
    (st.stopped = false → st.localErr + 1 < 5 →
      (loop_step st TickOutcome.editError).stopped = false) ∧
    (st.stopped = false →
      (loop_step st TickOutcome.siblingError).localErr = 1 ∧
      (loop_step st TickOutcome.siblingError).stopped = false) ∧
    (st.stopped = false →
      (loop_step st TickOutcome.refreshFail).stopped =
        decide (st.selfErr + 1 ≥ 3)) ∧
    (st.stopped = true → loop_step st o = st) := by
  refine ⟨?_, ?_, ?_, ?_, ?_, ?_, ?_⟩
  · intro hall hcount
    exact run_loop_few_errors os initCtl hall rfl (by simpa [initCtl] using hcount)
  · intro hstop
    simp [loop_step, hstop]
  · intro hstop h4
    simp [loop_step, hstop, h4]
  · intro hstop hlt
    simp only [loop_step, hstop, Bool.false_eq_true, if_false]
    simp only [decide_eq_false_iff_not]
    omega
  · intro hstop
    constructor <;> simp [loop_step, hstop]
  · intro hstop
    simp [loop_step, hstop]
  · intro hstop
    simp [loop_step, hstop]

/-- Witness for C8: a loop seeing four generic errors among quiet ticks
keeps running; a fresh loop state behaves as characterized — including
that an update failure on an own message whose surface is gone does not
stop a fresh loop — and a stopped state absorbs outcomes. -/
theorem claim_C8_witness :
    (run_loop initCtl [TickOutcome.editError, TickOutcome.noUpdate,
      TickOutcome.editError, TickOutcome.editError, TickOutcome.tickError,
      TickOutcome.editError]).stopped = false ∧
    (loop_step ⟨0, 4, false⟩ TickOutcome.editOk).localErr = 0 ∧
    (loop_step ⟨0, 4, false⟩ TickOutcome.editError).stopped = true ∧
    (loop_step ⟨0, 1, false⟩ TickOutcome.editError).stopped = false ∧
    (loop_step ⟨0, 3, false⟩ TickOutcome.siblingError).localErr = 1 ∧
    (loop_step ⟨0, 3, false⟩ TickOutcome.siblingError).stopped = false ∧
    (loop_step ⟨2, 0, false⟩ TickOutcome.refreshFail).stopped =
      decide ((2 : Nat) + 1 ≥ 3) ∧
    loop_step ⟨1, 2, true⟩ TickOutcome.editError = ⟨1, 2, true⟩ :=
  ⟨(claim_C8 ⟨0, 4, false⟩ [TickOutcome.editError, TickOutcome.noUpdate,
      TickOutcome.editError, TickOutcome.editError, TickOutcome.tickError,
      TickOutcome.editError] TickOutcome.editError).1 (by decide) (by decide),
    (claim_C8 ⟨0, 4, false⟩ [] TickOutcome.editError).2.1 rfl,
    (claim_C8 ⟨0, 4, false⟩ [] TickOutcome.editError).2.2.1 rfl rfl,
    (claim_C8 ⟨0, 1, false⟩ [] TickOutcome.editError).2.2.2.1 rfl (by decide),
    ((claim_C8 ⟨0, 3, false⟩ [] TickOutcome.editError).2.2.2.2.1 rfl).1,
    ((claim_C8 ⟨0, 3, false⟩ [] TickOutcome.editError).2.2.2.2.1 rfl).2,
    (claim_C8 ⟨2, 0, false⟩ [] TickOutcome.editError).2.2.2.2.2.1 rfl,
    (claim_C8 ⟨1, 2, true⟩ [] TickOutcome.editError).2.2.2.2.2.2 rfl⟩

/-- A sibling walk over views that all succeed or are skipped finishes
without aborting and edits exactly the reachable ones. -/
theorem update_other_views_clean (others : List (String × Surface))
    (h : ∀ v ∈ others, v.2 = Surface.ok ∨ v.2 = Surface.noMsg) :
    update_other_views others =
      ((others.filter (fun v => decide (v.2 = Surface.ok))).map Prod.fst,
        false) := by
  induction others with
  | nil => rfl
  | cons v rest ih =>
    obtain ⟨gid, s⟩ := v
    have hrest := ih (fun v hv => h v (List.mem_cons_of_mem _ hv))
    rcases h (gid, s) (List.mem_cons_self _ _) with hs | hs <;>
      simp only at hs <;> subst hs <;>
      simp [update_other_views, List.filter_cons, hrest]

/-- The first failing sibling aborts the walk: only the reachable views
before it are edited, the views after it are not visited, and nothing is
pruned. -/
theorem update_other_views_aborts (pre post : List (String × Surface))
    (gid : String) (s : Surface)
    (hpre : ∀ v ∈ pre, v.2 = Surface.ok ∨ v.2 = Surface.noMsg)
    (hs : s = Surface.gone ∨ s = Surface.err) :
    update_other_views (pre ++ (gid, s) :: post) =
      ((pre.filter (fun v => decide (v.2 = Surface.ok))).map Prod.fst,
        true) := by
  induction pre with
  | nil =>
    rcases hs with hs | hs <;> subst hs <;>
      simp [update_other_views, List.filter_cons]
  | cons v rest ih =>
    obtain ⟨gid0, s0⟩ := v
    have hrest := ih (fun v hv => hpre v (List.mem_cons_of_mem _ hv))
    rcases hpre (gid0, s0) (List.mem_cons_self _ _) with hs0 | hs0 <;>
      simp only at hs0 <;> subst hs0 <;>
      simp [update_other_views, List.filter_cons, hrest]

/-- Claim C9 is right about the intent and the code is wrong: the prune
of an unreachable view at views.py line 635 (commented "Remove invalid
views") is unreachable, because views.py line 5 binds only ButtonStyle
and ui and the clause  except (discord.NotFound, discord.Forbidden)  at
line 633 raises NameError, which also skips the except Exception at
line 636 and aborts the whole sibling walk at line 639.  Evaluated at
the failing input — own view reachable, siblings B reachable, C with a
deleted surface, D reachable — the tick edits only B, prunes nothing
(in no run is anything ever pruned), and the walk abort is counted as
one generic error that leaves the loop running; likewise a gone surface
behind the own message is just one generic error, not a stop. -/
theorem claim_C9 (own : Surface) (others : List (String × Surface)) :
    (update_views own others).pruned = [] ∧
    (update_views Surface.ok [("B", Surface.ok), ("C", Surface.gone),
      ("D", Surface.ok)]).edited = ["B"] ∧
    (update_views Surface.ok [("B", Surface.ok), ("C", Surface.gone),
      ("D", Surface.ok)]).outcome = TickOutcome.siblingError ∧
    (update_views Surface.gone others).outcome = TickOutcome.editError ∧
    (loop_step initCtl TickOutcome.siblingError).stopped = false ∧
    (loop_step initCtl TickOutcome.editError).stopped = false := by
  refine ⟨?_, by decide, by decide, ?_, by decide, by decide⟩
  · cases own <;> simp [update_views]
  · rfl

/-- The first cache entry with the clicked id is toggled: a present
record (no matter how old) is cleared with a store DELETE, an absent one
is set to the click instant with a store upsert; all other entries are
untouched. -/
theorem callback_click_spec (now : Int) (tid : String)
    (es : List (Tracked α)) (e : Tracked α) (l : Int)
    (hfind : es.find? (fun x => x.tid == tid) = some e) :
    (e.last = none →
      (callback_click now tid es).2 = StoreOp.upsert tid now ∧
      { e with last := some now } ∈ (callback_click now tid es).1) ∧
    (e.last = some l →
      (callback_click now tid es).2 = StoreOp.del tid ∧
      { e with last := none } ∈ (callback_click now tid es).1) := by
  induction es with
  | nil => simp [List.find?] at hfind
  | cons e0 rest ih =>
    by_cases h : e0.tid = tid
    · rw [List.find?_cons_of_pos _ (by simp [h])] at hfind
      have he : e0 = e := Option.some.inj hfind
      subst he
      constructor
      · intro hnone
        have hstep : callback_click now tid (e0 :: rest) =
            ({ e0 with last := some now } :: rest, StoreOp.upsert tid now) := by
          simp [callback_click, h, hnone]
        rw [hstep]
        exact ⟨rfl, List.mem_cons_self _ _⟩
      · intro hsome
        have hstep : callback_click now tid (e0 :: rest) =
            ({ e0 with last := none } :: rest, StoreOp.del tid) := by
          simp [callback_click, h, hsome]
        rw [hstep]
        exact ⟨rfl, List.mem_cons_self _ _⟩
    · rw [List.find?_cons_of_neg _ (by simp [h])] at hfind
      have hstep : callback_click now tid (e0 :: rest) =
          (e0 :: (callback_click now tid rest).1,
            (callback_click now tid rest).2) := by
        simp [callback_click, h]
      rw [hstep]
      obtain ⟨ih1, ih2⟩ := ih hfind
      constructor
      · intro hnone
        exact ⟨(ih1 hnone).1, List.mem_cons_of_mem _ (ih1 hnone).2⟩
      · intro hsome
        exact ⟨(ih2 hsome).1, List.mem_cons_of_mem _ (ih2 hsome).2⟩

/-- Claim C10: clicking a target whose cached record is absent sets the cached
timestamp to the click instant and upserts the store row; clicking one
whose record is present — regardless of whether its cooldown has elapsed
— clears the cached timestamp and deletes the store row; and every
attack button is rendered clickable (disabled = false) even while
cooling down. -/
theorem claim_C10 (now : Int) (tid : String) (es : List (Tracked Int))
    (e : Tracked Int) (l : Int) (cd now2 : Int) (last : Option Int)
    (store : List (String × Int))
    (hfind : es.find? (fun x => x.tid == tid) = some e) :
    (e.last = none →
      (callback_click now tid es).2 = StoreOp.upsert tid now ∧
      { e with last := some now } ∈ (callback_click now tid es).1) ∧
    (e.last = some l →
      (callback_click now tid es).2 = StoreOp.del tid ∧
      { e with last := none } ∈ (callback_click now tid es).1) ∧
    (make_attack_button cd last now2).disabled = false ∧
    (tid, now) ∈ applyStoreOp store (StoreOp.upsert tid now) ∧
    (∀ q ∈ applyStoreOp store (StoreOp.del tid), q.1 ≠ tid) := by
  obtain ⟨h1, h2⟩ := callback_click_spec now tid es e l hfind
  refine ⟨h1, h2, ?_, List.mem_cons_self _ _, ?_⟩
  · cases last <;> rfl
  · intro q hq
    have hmem := List.mem_filter.mp hq
    rw [decide_eq_true_eq] at hmem
    exact hmem.2

/-- Witness for C10: a one-target cache with a record present from
instant 0, clicked at 99 (cooldown far from elapsed), and a one-target
cache with no record, clicked at 50. -/
theorem claim_C10_witness :
    ((callback_click 99 ("A") [(⟨"A", some 0, 5⟩ : Tracked Int)]).2 =
        StoreOp.del ("A") ∧
      (⟨"A", none, 5⟩ : Tracked Int) ∈
        (callback_click 99 ("A") [(⟨"A", some 0, 5⟩ : Tracked Int)]).1) ∧
    ((callback_click 50 ("B") [(⟨"B", none, 7⟩ : Tracked Int)]).2 =
        StoreOp.upsert ("B") 50 ∧
      (⟨"B", some 50, 7⟩ : Tracked Int) ∈
        (callback_click 50 ("B") [(⟨"B", none, 7⟩ : Tracked Int)]).1) ∧
    (make_attack_button 4 (some 0) 99).disabled = false ∧
    ("B", (50 : Int)) ∈ applyStoreOp [("B", 0)] (StoreOp.upsert ("B") 50) ∧
    (∀ q ∈ applyStoreOp [("A", (0 : Int))] (StoreOp.del ("A")),
      q.1 ≠ "A") :=
  ⟨(claim_C10 99 ("A") [⟨"A", some 0, 5⟩] ⟨"A", some 0, 5⟩ 0 4 99 (some 0)
      [("A", 0)] (by decide)).2.1 rfl,
    (claim_C10 50 ("B") [⟨"B", none, 7⟩] ⟨"B", none, 7⟩ 0 4 99 (some 0)
      [("B", 0)] (by decide)).1 rfl,
    (claim_C10 99 ("A") [⟨"A", some 0, 5⟩] ⟨"A", some 0, 5⟩ 0 4 99 (some 0)
      [("A", 0)] (by decide)).2.2.1,
    (claim_C10 50 ("B") [⟨"B", none, 7⟩] ⟨"B", none, 7⟩ 0 4 99 (some 0)
      [("B", 0)] (by decide)).2.2.2.1,
    (claim_C10 99 ("A") [⟨"A", some 0, 5⟩] ⟨"A", some 0, 5⟩ 0 4 99 (some 0)
      [("A", 0)] (by decide)).2.2.2.2⟩
